import Mathlib

/-!
# Verification of `src/lsptoolshost/roslynLanguageServer.ts`

A shallow embedding of the Roslyn language-server lifecycle wrapper of the
`vscode-csharp` extension.  Effectful TypeScript code is modelled as explicit
state passing over a `ServerState`, with the surrounding editor host (file
system, options, installed extensions, the companion C# Devkit extension)
captured in an `Env` record.  Observable actions (process spawns, client
stop/dispose calls, information prompts) are collected in an `Effect` trace;
output-channel logging is not tracked, as no verified property mentions it.
JavaScript truthiness on optional strings and booleans is modelled explicitly
(`jsTruthy`, `optBoolTruthy`): `undefined`, `null`, `false` and the empty
string are falsy.
-/

namespace RLS

/-- The `Trace` enum of `vscode-languageclient` (only the constructors this
module uses). -/
inductive Trace where
  | Verbose
  | Messages
  | Off
deriving DecidableEq, Repr

/-- `RoslynLanguageServer.GetTraceLevel` (roslynLanguageServer.ts, lines
320-340): maps a log-level string to a client trace level, throwing on any
unrecognized value.  The thrown `Error` is modelled as `Except.error` carrying
the message. -/
def GetTraceLevel (logLevel : String) : Except String Trace :=
  match logLevel with
  | "Trace" => Except.ok Trace.Verbose
  | "Debug" => Except.ok Trace.Messages
  | "Information" => Except.ok Trace.Off
  | "Warning" => Except.ok Trace.Off
  | "Error" => Except.ok Trace.Off
  | "Critical" => Except.ok Trace.Off
  | "None" => Except.ok Trace.Off
  | _ => Except.error ("Invalid log level " ++ logLevel)

/-- The recognized log-level strings of the settings surface. -/
def recognizedLogLevels : List String :=
  ["Trace", "Debug", "Information", "Warning", "Error", "Critical", "None"]

/-- JavaScript truthiness of a `string | undefined` value: `undefined` and
the empty string are falsy. -/
def jsTruthy : Option String → Bool
  | none => false
  | some s => s ≠ ""

/-- JavaScript truthiness of a `boolean | undefined` value: only `true` is
truthy. -/
def optBoolTruthy : Option Bool → Bool
  | some true => true
  | _ => false

/-- A `vscode.Uri`, reduced to the one field this module reads of a solution
URI: its `fsPath`. -/
structure Uri where
  fsPath : String
deriving DecidableEq, Repr

/-- One `args.push(...)` call in `startServer` (lines 207-229): either a bare
flag (`--debug`) or a flag with its value token.  The flat command line is the
concatenation of the pushes' tokens; keeping the push structure lets us state
which tokens occupy flag positions. -/
inductive Push where
  | flag (name : String)
  | flagValue (name : String) (value : String)
deriving DecidableEq, Repr

/-- The command-line tokens a push contributes. -/
def Push.tokens : Push → List String
  | Push.flag n => [n]
  | Push.flagValue n v => [n, v]

/-- The flag name of a push. -/
def Push.name : Push → String
  | Push.flag n => n
  | Push.flagValue n _ => n

/-- The sequence of `args.push` calls of `startServer` (lines 207-229), as a
function of the inputs read there: `options.commonOptions.waitForDebugger`,
the `logLevel` parameter, the brokered-service pipe name, the `solutionPath`
parameter and the starred-completion component path.  Each `if (x)` on a
string is a JS truthiness test. -/
def buildPushes (waitForDebugger : Bool) (logLevel : Option String)
    (brokeredServicePipeName : Option String) (solutionPath : Option Uri)
    (starredCompletionComponentPath : Option String) : List Push :=
  (if waitForDebugger then [Push.flag "--debug"] else [])
  ++ (match logLevel with
      | some l => if l = "" then [] else [Push.flagValue "--logLevel" l]
      | none => [])
  ++ (match brokeredServicePipeName with
      | some p =>
        if p = "" then
          (match solutionPath with
           | some u => [Push.flagValue "--solutionPath" u.fsPath]
           | none => [])
        else [Push.flagValue "--brokeredServicePipeName" p]
      | none =>
        (match solutionPath with
         | some u => [Push.flagValue "--solutionPath" u.fsPath]
         | none => []))
  ++ (match starredCompletionComponentPath with
      | some s => if s = "" then [] else [Push.flagValue "--starredCompletionComponentPath" s]
      | none => [])

/-- The flat `args` array handed to `cp.spawn`: the tokens of the pushes in
order. -/
def buildArgs (waitForDebugger : Bool) (logLevel : Option String)
    (brokeredServicePipeName : Option String) (solutionPath : Option Uri)
    (starredCompletionComponentPath : Option String) : List String :=
  (buildPushes waitForDebugger logLevel brokeredServicePipeName solutionPath
    starredCompletionComponentPath).flatMap Push.tokens

/-- How many pushes of the list are a `--solutionPath` flag. -/
def solutionFlagCount : List Push → Nat
  | [] => 0
  | p :: ps => (if p.name = "--solutionPath" then 1 else 0) + solutionFlagCount ps

end RLS

namespace RLS

/-- The exports object a present C# Devkit extension's activation resolves to.
`hasGetBrokeredServiceServerPipeName` models the JS `in` membership test for
the required export; `getBrokeredServiceServerPipeName` is the (awaited)
result of calling it; `components` is the optional exported component map
(`none` models a falsy `components` property). -/
structure Exports where
  hasGetBrokeredServiceServerPipeName : Bool
  getBrokeredServiceServerPipeName : Option String
  components : Option (String → Option String)

/-- An installed C# Devkit extension, reduced to what this module consumes:
the value its `activate()` promise resolves to (which may be a falsy
`undefined`, modelled as `none`). -/
structure Extension where
  activateResult : Option Exports

/-- A live `LanguageClient` handle, carrying the trace level derived from the
log-level option at creation time. -/
structure ClientHandle where
  traceLevel : Trace
deriving DecidableEq, Repr

/-- The observable actions of the module that the verified properties talk
about: spawning a child process, requesting client stop / resource disposal
with a timeout, and showing an information prompt offering a command. -/
inductive Effect where
  | spawn (cmd : String) (args : List String)
  | clientStop (timeoutMs : Nat)
  | clientDispose (timeoutMs : Nat)
  | showInfo (message : String) (title : String) (command : String)
deriving DecidableEq, Repr

/-- The editor-host environment a lifecycle operation runs against: the
installed companion extension (if any), the file system, and the resolved
options snapshot.  `dotnetResolve` is the outcome of
`dotnetResolver.getHostExecutableInfo` (the resolved version string, or a
rejection); `clientStopRejects` says whether `languageClient.stop(timeout)`
rejects. -/
structure Env where
  csharpDevkitExtension : Option Extension
  fsExists : String → Bool
  serverPathOption : Option String
  clientRoot : String
  isWindows : Bool
  isMacOS : Bool
  waitForDebugger : Bool
  logLevel : String
  solutionFiles : List Uri
  dotnetResolve : Except String String
  clientStopRejects : Bool

/-- The mutable instance state of `RoslynLanguageServer`: the optional
`_languageClient` handle and the tri-state `_wasActivatedWithCSharpDevkit`
flag. -/
structure ServerState where
  languageClient : Option ClientHandle
  wasActivatedWithCSharpDevkit : Option Bool
deriving DecidableEq, Repr

/-- The fixed extension identifier `csharpDevkitExtensionId`. -/
def csharpDevkitExtensionId : String := "ms-dotnettools.csdevkit"

/-- `RoslynLanguageServer._stopTimeout`: the timeout for stopping the
language server, in ms. -/
def _stopTimeout : Nat := 10000

/-- `getServerFileName` (lines 269-284): the default server file name with
the platform-specific extension (`.exe` on Windows, `.dll` on macOS because
of the code-signing constraint, none otherwise). -/
def getServerFileName (isWindows isMacOS : Bool) : String :=
  let extension := if isWindows then ".exe" else ""
  let extension := if isMacOS then ".dll" else extension
  "Microsoft.CodeAnalysis.LanguageServer" ++ extension

/-- The server-path resolution of `startServer` (lines 188-194): the
`serverPath` option when truthy, else the default path under the extension
(`path.join` modelled as slash-joining, without segment normalization —
no verified property depends on join normalization). -/
def resolveServerPath (env : Env) : String :=
  match env.serverPathOption with
  | some p => if p = "" then
      env.clientRoot ++ "/../.roslyn/" ++ getServerFileName env.isWindows env.isMacOS
    else p
  | none => env.clientRoot ++ "/../.roslyn/" ++ getServerFileName env.isWindows env.isMacOS

/-- `waitForCSharpDevkitActivationAndGetExports` (lines 286-298): if the
Devkit extension is absent, records standalone activation and returns
`undefined`; otherwise records integrated activation and returns the
extension's activation result. -/
def waitForCSharpDevkitActivationAndGetExports (env : Env) (s : ServerState) :
    Option Exports × ServerState :=
  match env.csharpDevkitExtension with
  | none => (none, { s with wasActivatedWithCSharpDevkit := some false })
  | some ext => (ext.activateResult, { s with wasActivatedWithCSharpDevkit := some true })

/-- `getBrokeredServicePipeName` (lines 300-310): returns `undefined` when
not activated with Devkit or the exports value is falsy; throws when the
required export is missing; otherwise returns the export's result. -/
def getBrokeredServicePipeName (wasActivatedWithCSharpDevkit : Option Bool)
    (csharpDevkitExports : Option Exports) : Except String (Option String) :=
  if optBoolTruthy wasActivatedWithCSharpDevkit = false then Except.ok none
  else
    match csharpDevkitExports with
    | none => Except.ok none
    | some e =>
      if e.hasGetBrokeredServiceServerPipeName = false then
        Except.error
          "C# Devkit is installed but missing expected export getBrokeredServiceServerPipeName"
      else Except.ok e.getBrokeredServiceServerPipeName

/-- `getStarredCompletionComponentPath` (lines 312-318): returns the starred
suggestions component path from the Devkit component map when every link of
the truthiness chain holds, else `undefined`. -/
def getStarredCompletionComponentPath (wasActivatedWithCSharpDevkit : Option Bool)
    (csharpDevkitExports : Option Exports) : Option String :=
  if optBoolTruthy wasActivatedWithCSharpDevkit = false then none
  else
    match csharpDevkitExports with
    | none => none
    | some e =>
      match e.components with
      | none => none
      | some comps =>
        match comps "@vsintellicode/starred-suggestions-csharp" with
        | none => none
        | some p => if p = "" then none else some p

/-- The `cp.spawn` call of `startServer` (lines 233-241): paths ending in
`.dll` are launched through `dotnet` with the path prepended to the
arguments; any other path is spawned directly. -/
structure SpawnCall where
  cmd : String
  args : List String
deriving DecidableEq, Repr

/-- The JS `String.prototype.endsWith` test used by the spawn selection,
stated over the character lists of the strings. -/
def endsWith (s suff : String) : Bool :=
  s.data.drop (s.data.length - suff.data.length) == suff.data

/-- The spawn selection of `startServer` for a server path and argument
list. -/
def spawnChoice (serverPath : String) (args : List String) : SpawnCall :=
  if endsWith serverPath ".dll" then SpawnCall.mk "dotnet" (serverPath :: args)
  else SpawnCall.mk serverPath args

/-- `startServer` (lines 187-244): resolves the server path, fails when it
does not exist on disk, negotiates Devkit capabilities (updating the
activation flag), builds the argument list, and spawns the process.  The
returned `SpawnCall` is the spawned child process; the thrown `Error`s are
`Except.error`. -/
def startServer (env : Env) (s : ServerState) (solutionPath : Option Uri)
    (logLevel : Option String) : ServerState × Except String SpawnCall × List Effect :=
  let serverPath := resolveServerPath env
  if env.fsExists serverPath = false then
    (s, Except.error ("Cannot find language server in path " ++ serverPath), [])
  else
    match waitForCSharpDevkitActivationAndGetExports env s with
    | (vsGreenExports, s1) =>
      match getBrokeredServicePipeName s1.wasActivatedWithCSharpDevkit vsGreenExports with
      | Except.error e => (s1, Except.error e, [])
      | Except.ok brokeredServicePipeName =>
        let starredCompletionComponentPath :=
          getStarredCompletionComponentPath s1.wasActivatedWithCSharpDevkit vsGreenExports
        let args := buildArgs env.waitForDebugger logLevel brokeredServicePipeName
          solutionPath starredCompletionComponentPath
        let call := spawnChoice serverPath args
        (s1, Except.ok call, [Effect.spawn call.cmd call.args])

/-- `start` (lines 95-169): resolves the dotnet host (propagating failure),
discovers at most one solution file, derives the trace level from the
log-level option (throwing on an unrecognized level before any client is
created), stores a new client handle, and starts the client — which invokes
the `startServer` factory, modelled as running it now. -/
def start (env : Env) (s : ServerState) : ServerState × Except String Unit × List Effect :=
  match env.dotnetResolve with
  | Except.error e => (s, Except.error e, [])
  | Except.ok _version =>
    let solutionPath := env.solutionFiles.head?
    match GetTraceLevel env.logLevel with
    | Except.error e => (s, Except.error e, [])
    | Except.ok languageClientTraceLevel =>
      let s1 := { s with languageClient := some (ClientHandle.mk languageClientTraceLevel) }
      match startServer env s1 solutionPath (some env.logLevel) with
      | (s2, Except.error e, effs) => (s2, Except.error e, effs)
      | (s2, Except.ok _child, effs) => (s2, Except.ok (), effs)

/-- `stop` (lines 171-175): optional-chained stop of the language client with
the fixed timeout, then disposal with the same timeout, then clearing the
handle.  With no handle both optional calls are no-ops.  A rejection of
`languageClient.stop` propagates before the disposal and the clearing run. -/
def stop (env : Env) (s : ServerState) : ServerState × Except String Unit × List Effect :=
  match s.languageClient with
  | none => ({ s with languageClient := none }, Except.ok (), [])
  | some _client =>
    if env.clientStopRejects then
      (s, Except.error "stopping the language client failed", [Effect.clientStop _stopTimeout])
    else
      ({ s with languageClient := none }, Except.ok (),
        [Effect.clientStop _stopTimeout, Effect.clientDispose _stopTimeout])

/-- `restart` (lines 182-185): `await this.stop()` then `await this.start()`;
a rejection of `stop` propagates and `start` is never invoked. -/
def restart (env : Env) (s : ServerState) : ServerState × Except String Unit × List Effect :=
  match stop env s with
  | (s1, Except.error e, effs) => (s1, Except.error e, effs)
  | (s1, Except.ok _, effs) =>
    match start env s1 with
    | (s2, r, effs2) => (s2, r, effs ++ effs2)

/-- The `vscode.extensions.onDidChange` handler registered by the constructor
(lines 69-89): with `devkitPresent` the current presence of the Devkit
extension, returns the emitted effects — a single information prompt offering
the restart command exactly when activation already happened without Devkit
and Devkit is now present. -/
def onDidChangeExtensionsHandler (devkitPresent : Bool) (s : ServerState) : List Effect :=
  match s.wasActivatedWithCSharpDevkit with
  | none => []
  | some was =>
    if devkitPresent && !was then
      [Effect.showInfo
        ("Detected installation of " ++ csharpDevkitExtensionId ++
          ". Would you like to relaunch the language server for added features?")
        "Restart Language Server" "dotnet.restartServer"]
    else []

end RLS

namespace RLS

namespace UriConverter

/-- Modelled from the spec: the identifier-conversion pair
`UriConverter.serialize` / `UriConverter.deserialize` lives in
`src/lsptoolshost/uriConverter.ts`, which is not part of the sources at hand
(only its import and use sites in `roslynLanguageServer.ts`, lines 128-136,
are).  Following the spec's words — the conversion translates between
percent-encoded path separators / drive letters (`%3A`, forward slashes) on
the protocol side and native separators (colons, backslashes) on the editor
side — paths and URIs are modelled as character lists and the encoding acts
character-wise: a drive colon becomes `%3A` and a native backslash separator
becomes a forward slash. -/
def encodeChars : List Char → List Char
  | [] => []
  | c :: rest =>
    if c = ':' then '%' :: '3' :: 'A' :: encodeChars rest
    else if c = '\\' then '/' :: encodeChars rest
    else c :: encodeChars rest

/-- Modelled from the spec: the inverse direction of the identifier
conversion — `%3A` decodes to a colon and a forward slash decodes to a native
backslash separator. -/
def decodeChars : List Char → List Char
  | [] => []
  | '%' :: '3' :: 'A' :: rest => ':' :: decodeChars rest
  | '/' :: rest => '\\' :: decodeChars rest
  | c :: rest => c :: decodeChars rest

/-- Modelled from the spec: `code2Protocol` — serializing an editor-side path
into a protocol `file:///` URI with percent-encoded drive colons and forward
slashes. -/
def serialize (p : List Char) : List Char :=
  'f' :: 'i' :: 'l' :: 'e' :: ':' :: '/' :: '/' :: '/' :: encodeChars p

/-- Modelled from the spec: `protocol2Code` — deserializing a protocol
`file:///` URI back into an editor-side path; a value without the scheme
prefix is not a protocol document identifier. -/
def deserialize : List Char → Option (List Char)
  | 'f' :: 'i' :: 'l' :: 'e' :: ':' :: '/' :: '/' :: '/' :: rest =>
    some (decodeChars rest)
  | _ => none

/-- A valid workspace path in the sense of the conversion: native separators
and drive colons only — no percent escapes and no forward slashes of the
protocol convention. -/
def validPath (p : List Char) : Bool :=
  p.all (fun c => c != '%' && c != '/')

/-- A valid protocol URI: the `file:///` scheme prefix followed by a body in
the protocol convention — no native colons or backslashes. -/
def validUri : List Char → Bool
  | 'f' :: 'i' :: 'l' :: 'e' :: ':' :: '/' :: '/' :: '/' :: rest =>
    rest.all (fun c => c != ':' && c != '\\')
  | _ => false

end UriConverter

/-- A sample environment for concrete evaluations: no Devkit extension, an
existing executable server path, a recognized log level, one discovered
solution, a resolving dotnet host and a client whose stop resolves. -/
def sampleEnv : Env :=
  { csharpDevkitExtension := none
    fsExists := fun _ => true
    serverPathOption := some "/opt/roslyn/Microsoft.CodeAnalysis.LanguageServer"
    clientRoot := "/ext/dist"
    isWindows := false
    isMacOS := false
    waitForDebugger := false
    logLevel := "Information"
    solutionFiles := [Uri.mk "/work/App.sln"]
    dotnetResolve := Except.ok "7.0.100"
    clientStopRejects := false }

/-- A sample Devkit exports object offering the brokered-service pipe. -/
def sampleExports : Exports :=
  { hasGetBrokeredServiceServerPipeName := true
    getBrokeredServiceServerPipeName := some "devkit-pipe"
    components := none }

/-- A sample instance state that was never started and never activated. -/
def freshState : ServerState :=
  { languageClient := none, wasActivatedWithCSharpDevkit := none }

/-- A sample instance state with a live client, activated standalone. -/
def runningState : ServerState :=
  { languageClient := some (ClientHandle.mk Trace.Off)
    wasActivatedWithCSharpDevkit := some false }

/-- A sample Devkit exports object violating the contract: the required
`getBrokeredServiceServerPipeName` export is missing. -/
def badExports : Exports :=
  { hasGetBrokeredServiceServerPipeName := false
    getBrokeredServiceServerPipeName := none
    components := none }

/-- A sample environment with a present Devkit extension whose exports lack
the required export. -/
def devkitEnvBad : Env :=
  { sampleEnv with csharpDevkitExtension := some (Extension.mk (some badExports)) }

/-- A sample environment with a present Devkit extension whose activation
resolves to a falsy exports value. -/
def devkitEnvFalsy : Env :=
  { sampleEnv with csharpDevkitExtension := some (Extension.mk none) }

end RLS

namespace RLS

theorem GetTraceLevel_unrecognized (lv : String) (hlv : lv ∉ recognizedLogLevels) :
    GetTraceLevel lv = Except.error ("Invalid log level " ++ lv) := by
  simp only [recognizedLogLevels, List.mem_cons, List.not_mem_nil, or_false, not_or] at hlv
  obtain ⟨h1, h2, h3, h4, h5, h6, h7⟩ := hlv
  unfold GetTraceLevel
  split
  all_goals simp_all

/-- C1: for every log-level string in the recognized set
`{Trace, Debug, Information, Warning, Error, Critical, None}`, `GetTraceLevel`
returns the mapped trace verbosity (`Trace` maps to `Verbose`, `Debug` to
`Messages`, every other recognized value to `Off`); for any string outside
the recognized set it throws, `start` rejects, and no server process is
spawned — in particular, when the dotnet host resolves, the rejection carries
precisely the invalid-log-level error thrown before any spawn. -/
theorem getTraceLevel_spec (lv : String) (env : Env) (s : ServerState)
    (hlv : lv ∉ recognizedLogLevels) (henv : env.logLevel = lv) :
    (GetTraceLevel "Trace" = Except.ok Trace.Verbose ∧
     GetTraceLevel "Debug" = Except.ok Trace.Messages ∧
     GetTraceLevel "Information" = Except.ok Trace.Off ∧
     GetTraceLevel "Warning" = Except.ok Trace.Off ∧
     GetTraceLevel "Error" = Except.ok Trace.Off ∧
     GetTraceLevel "Critical" = Except.ok Trace.Off ∧
     GetTraceLevel "None" = Except.ok Trace.Off) ∧
    GetTraceLevel lv = Except.error ("Invalid log level " ++ lv) ∧
    (start env s).2.1.isOk = false ∧
    (∀ c a, Effect.spawn c a ∉ (start env s).2.2) ∧
    (∀ v, env.dotnetResolve = Except.ok v →
      (start env s).2.1 = Except.error ("Invalid log level " ++ lv)) := by
  have hg : GetTraceLevel env.logLevel = Except.error ("Invalid log level " ++ lv) := by
    rw [henv]; exact GetTraceLevel_unrecognized lv hlv
  refine ⟨⟨rfl, rfl, rfl, rfl, rfl, rfl, rfl⟩, GetTraceLevel_unrecognized lv hlv, ?_⟩
  unfold start
  cases hd : env.dotnetResolve with
  | error e => simp [hd, Except.isOk, Except.toBool]
  | ok v => simp [hd, hg, Except.isOk, Except.toBool]

/-- C1 witness: the unrecognized level `Verbose` is rejected and `start` does
not succeed on an environment configured with it. -/
theorem getTraceLevel_spec_witness :
    "Verbose" ∉ recognizedLogLevels ∧
    GetTraceLevel "Verbose" = Except.error ("Invalid log level " ++ "Verbose") ∧
    (start { sampleEnv with logLevel := "Verbose" } freshState).2.1.isOk = false :=
  have h := getTraceLevel_spec "Verbose" { sampleEnv with logLevel := "Verbose" } freshState
    (by decide) rfl
  ⟨by decide, h.2.1, h.2.2.1⟩

theorem solutionFlagCount_append (a b : List Push) :
    solutionFlagCount (a ++ b) = solutionFlagCount a + solutionFlagCount b := by
  induction a with
  | nil => simp [solutionFlagCount]
  | cons p ps ih => simp [solutionFlagCount, ih]; omega

theorem tokens_infix_of_mem {p : Push} {ps : List Push} (h : p ∈ ps) :
    List.IsInfix p.tokens (ps.flatMap Push.tokens) := by
  induction ps with
  | nil => cases h
  | cons q qs ih =>
    rcases List.mem_cons.mp h with h1 | h2
    · exact ⟨[], qs.flatMap Push.tokens, by simp [h1]⟩
    · rcases ih h2 with ⟨s, t, hst⟩
      exact ⟨q.tokens ++ s, t, by simp [← hst]⟩

/-- C2: when a truthy brokered-service pipe name was obtained, the built
launch-argument list contains no `--solutionPath` flag; when no truthy pipe
name was obtained and a solution was discovered, it contains exactly one
`--solutionPath` flag, carrying that solution's filesystem path, and the flat
token list contains `--solutionPath` immediately followed by that path. -/
theorem buildArgs_solutionPath_spec (dbg : Bool) (lv pipe st : Option String)
    (sln : Option Uri) :
    (jsTruthy pipe = true →
      solutionFlagCount (buildPushes dbg lv pipe sln st) = 0) ∧
    (jsTruthy pipe = false → ∀ u, sln = some u →
      solutionFlagCount (buildPushes dbg lv pipe sln st) = 1 ∧
      Push.flagValue "--solutionPath" u.fsPath ∈ buildPushes dbg lv pipe sln st ∧
      List.IsInfix ["--solutionPath", u.fsPath] (buildArgs dbg lv pipe sln st)) := by
  constructor
  · intro hp
    rcases pipe with _ | p
    · simp [jsTruthy] at hp
    · simp only [jsTruthy, decide_eq_true_eq] at hp
      rcases lv with _ | l <;> rcases st with _ | t <;> rcases sln with _ | u <;>
        rcases dbg with _ | _ <;>
        simp [buildPushes, hp, solutionFlagCount_append] <;>
        (repeat' split) <;> simp_all [solutionFlagCount, Push.name]
  · intro hp u hu
    subst hu
    have hpipe : pipe = none ∨ pipe = some "" := by
      rcases pipe with _ | p
      · exact Or.inl rfl
      · simp only [jsTruthy, decide_eq_true_eq, Bool.not_eq_true] at hp
        simp_all
    have hmem : Push.flagValue "--solutionPath" u.fsPath ∈ buildPushes dbg lv pipe (some u) st := by
      rcases hpipe with h | h <;> subst h <;> simp [buildPushes]
    refine ⟨?_, hmem, tokens_infix_of_mem hmem⟩
    rcases hpipe with h | h <;> subst h <;>
      rcases lv with _ | l <;> rcases st with _ | t <;> rcases dbg with _ | _ <;>
      simp [buildPushes, solutionFlagCount_append] <;>
      (repeat' split) <;> simp_all [solutionFlagCount, Push.name]

/-- C2 witness: with a pipe name the argument list has no solution flag; with
no pipe name and a discovered solution it has exactly one. -/
theorem buildArgs_solutionPath_spec_witness :
    jsTruthy (some "pipe7") = true ∧
    solutionFlagCount
      (buildPushes false (some "Information") (some "pipe7") (some (Uri.mk "/work/App.sln")) none)
      = 0 ∧
    jsTruthy (none : Option String) = false ∧
    solutionFlagCount
      (buildPushes false (some "Information") none (some (Uri.mk "/work/App.sln")) none)
      = 1 :=
  ⟨by decide,
   (buildArgs_solutionPath_spec false (some "Information") (some "pipe7") none
     (some (Uri.mk "/work/App.sln"))).1 (by decide),
   by decide,
   ((buildArgs_solutionPath_spec false (some "Information") none none
     (some (Uri.mk "/work/App.sln"))).2 (by decide) (Uri.mk "/work/App.sln") rfl).1⟩

/-- C3: for every resolved server path that exists on disk, `startServer`
spawns the selected call: a path ending in `.dll` is launched as `dotnet`
with the server path as first argument followed by the built argument list,
and any other existing path is spawned directly with the built argument
list; the spawn effect carries exactly the selected command and arguments. -/
theorem startServer_spawn_selection (env : Env) (s : ServerState)
    (sln : Option Uri) (lv : Option String) (pipe : Option String)
    (hex : env.fsExists (resolveServerPath env) = true)
    (hpipe : getBrokeredServicePipeName
        (waitForCSharpDevkitActivationAndGetExports env s).2.wasActivatedWithCSharpDevkit
        (waitForCSharpDevkitActivationAndGetExports env s).1 = Except.ok pipe) :
    (startServer env s sln lv).2.1 = Except.ok (spawnChoice (resolveServerPath env)
      (buildArgs env.waitForDebugger lv pipe sln
        (getStarredCompletionComponentPath
          (waitForCSharpDevkitActivationAndGetExports env s).2.wasActivatedWithCSharpDevkit
          (waitForCSharpDevkitActivationAndGetExports env s).1))) ∧
    (∀ call, (startServer env s sln lv).2.1 = Except.ok call →
      (startServer env s sln lv).2.2 = [Effect.spawn call.cmd call.args]) ∧
    (endsWith (resolveServerPath env) ".dll" = true → ∀ args,
      spawnChoice (resolveServerPath env) args
        = SpawnCall.mk "dotnet" (resolveServerPath env :: args)) ∧
    (endsWith (resolveServerPath env) ".dll" = false → ∀ args,
      spawnChoice (resolveServerPath env) args
        = SpawnCall.mk (resolveServerPath env) args) := by
  rcases hw : waitForCSharpDevkitActivationAndGetExports env s with ⟨exps, s1⟩
  rw [hw] at hpipe
  simp only at hpipe
  refine ⟨?_, ?_, ?_, ?_⟩
  · simp [startServer, hw, hex, hpipe]
  · intro call hcall
    simp only [startServer, hw, hex] at hcall ⊢
    simp only [Bool.true_eq_false, if_false] at hcall ⊢
    rw [hpipe] at hcall ⊢
    simp at hcall ⊢
    rw [hcall]
    exact ⟨rfl, rfl⟩
  · intro hd args
    simp [spawnChoice, hd]
  · intro hd args
    simp [spawnChoice, hd]

/-- C3 witness: an existing executable (non-`.dll`) server path is spawned
directly with the built arguments, and an existing `.dll` server path is
spawned through `dotnet` with the path as first argument. -/
theorem startServer_spawn_selection_witness :
    sampleEnv.fsExists (resolveServerPath sampleEnv) = true ∧
    (startServer sampleEnv freshState (some (Uri.mk "/work/App.sln")) (some "Information")).2.1
      = Except.ok (SpawnCall.mk "/opt/roslyn/Microsoft.CodeAnalysis.LanguageServer"
          ["--logLevel", "Information", "--solutionPath", "/work/App.sln"]) ∧
    (startServer { sampleEnv with serverPathOption := some "/srv/Server.dll" } freshState
        none none).2.1
      = Except.ok (SpawnCall.mk "dotnet" ["/srv/Server.dll"]) :=
  have h := startServer_spawn_selection sampleEnv freshState (some (Uri.mk "/work/App.sln"))
    (some "Information") none rfl rfl
  have h2 := startServer_spawn_selection
    { sampleEnv with serverPathOption := some "/srv/Server.dll" } freshState none none none rfl rfl
  ⟨rfl, h.1.trans rfl, h2.1.trans rfl⟩

/-- C4: for every resolved server path that does not exist on disk,
`startServer` throws the not-found error without spawning, `start` rejects
with an empty effect trace (so no child process is spawned), and — once the
dotnet host resolves and the log level is recognized — the rejection carries
precisely the not-found error. -/
theorem start_rejects_missing_server (env : Env) (s : ServerState)
    (sln : Option Uri) (lv : Option String)
    (hne : env.fsExists (resolveServerPath env) = false) :
    startServer env s sln lv
      = (s, Except.error ("Cannot find language server in path " ++ resolveServerPath env), []) ∧
    (start env s).2.1.isOk = false ∧
    (start env s).2.2 = [] ∧
    (∀ c a, Effect.spawn c a ∉ (start env s).2.2) ∧
    (∀ v tl, env.dotnetResolve = Except.ok v → GetTraceLevel env.logLevel = Except.ok tl →
      (start env s).2.1
        = Except.error ("Cannot find language server in path " ++ resolveServerPath env)) := by
  have hss : ∀ s' sl' lv', startServer env s' sl' lv'
      = (s', Except.error ("Cannot find language server in path " ++ resolveServerPath env), []) := by
    intro s' sl' lv'
    simp [startServer, hne]
  refine ⟨hss s sln lv, ?_⟩
  unfold start
  cases hd : env.dotnetResolve with
  | error e => simp [Except.isOk, Except.toBool, hd]
  | ok v =>
    cases hg : GetTraceLevel env.logLevel with
    | error e => simp [Except.isOk, Except.toBool, hd, hg]
    | ok tl => simp [Except.isOk, Except.toBool, hd, hg, hss]

/-- C4 witness: with a file system on which nothing exists, `start` rejects
with the not-found error and produces no spawn effect. -/
theorem start_rejects_missing_server_witness :
    ({ sampleEnv with fsExists := fun _ => false } : Env).fsExists
        (resolveServerPath { sampleEnv with fsExists := fun _ => false }) = false ∧
    (start { sampleEnv with fsExists := fun _ => false } freshState).2.1.isOk = false ∧
    (start { sampleEnv with fsExists := fun _ => false } freshState).2.2 = [] :=
  have h := start_rejects_missing_server { sampleEnv with fsExists := fun _ => false }
    freshState none none rfl
  ⟨rfl, h.2.1, h.2.2.1⟩

/-- C5: `restart` performs the full `stop` before `start` runs — its effect
trace is `stop`'s trace (which contains no spawn, and contains the
stop-with-timeout request whenever a client handle exists) followed by
`start`'s trace only when `stop` succeeded; if `stop` rejects, `start` is not
invoked and `restart` returns exactly `stop`'s outcome; and a successful
`stop` leaves no live client handle before `start` creates the next one. -/
theorem restart_stops_before_start (env : Env) (s : ServerState) :
    (restart env s).2.2 = (stop env s).2.2 ++
      (if (stop env s).2.1.isOk then (start env (stop env s).1).2.2 else []) ∧
    (∀ c a, Effect.spawn c a ∉ (stop env s).2.2) ∧
    ((stop env s).2.1.isOk = false → restart env s = stop env s) ∧
    ((stop env s).2.1.isOk = true → (stop env s).1.languageClient = none) ∧
    (∀ c, s.languageClient = some c → Effect.clientStop _stopTimeout ∈ (stop env s).2.2) := by
  cases hc : s.languageClient with
  | none =>
    simp [restart, stop, hc, Except.isOk, Except.toBool]
  | some c =>
    cases hr : env.clientStopRejects with
    | true => simp [restart, stop, hc, hr, Except.isOk, Except.toBool]
    | false => simp [restart, stop, hc, hr, Except.isOk, Except.toBool]

/-- C5 witness: when the client's stop rejects, `restart` returns `stop`'s
rejected outcome without invoking `start`. -/
theorem restart_stops_before_start_witness :
    (stop { sampleEnv with clientStopRejects := true } runningState).2.1.isOk = false ∧
    restart { sampleEnv with clientStopRejects := true } runningState
      = stop { sampleEnv with clientStopRejects := true } runningState :=
  have h := restart_stops_before_start { sampleEnv with clientStopRejects := true } runningState
  ⟨rfl, h.2.2.1 rfl⟩

/-- C8: calling `stop` with no live client handle is a no-op that resolves
without error and leaves the handle cleared; with a live handle, `stop`
requests graceful shutdown with the 10000 ms timeout, and (when the client
stop resolves) disposes with the same timeout and clears the handle. -/
theorem stop_never_started_noop (env : Env) (s : ServerState) :
    (s.languageClient = none → stop env s = (s, Except.ok (), [])) ∧
    (∀ c, s.languageClient = some c →
      Effect.clientStop _stopTimeout ∈ (stop env s).2.2 ∧
      (env.clientStopRejects = false →
        stop env s = ({ s with languageClient := none }, Except.ok (),
          [Effect.clientStop 10000, Effect.clientDispose 10000]))) := by
  constructor
  · intro hc
    rcases s with ⟨c, w⟩
    simp at hc
    subst hc
    simp [stop]
  · intro c hc
    cases hr : env.clientStopRejects with
    | true => simp [stop, hc, hr, _stopTimeout]
    | false => simp [stop, hc, hr, _stopTimeout]

/-- C8 witness: `stop` on a never-started state is an error-free no-op, and
`stop` on a live handle emits the stop and dispose requests with the fixed
timeout and clears the handle. -/
theorem stop_never_started_noop_witness :
    freshState.languageClient = none ∧
    stop sampleEnv freshState = (freshState, Except.ok (), []) ∧
    runningState.languageClient = some (ClientHandle.mk Trace.Off) ∧
    stop sampleEnv runningState
      = ({ runningState with languageClient := none }, Except.ok (),
         [Effect.clientStop 10000, Effect.clientDispose 10000]) :=
  have h := stop_never_started_noop sampleEnv freshState
  have h2 := stop_never_started_noop sampleEnv runningState
  ⟨rfl, h.1 rfl, rfl, (h2.2 (ClientHandle.mk Trace.Off) rfl).2 rfl⟩

/-- C9: on an extensions-change event, when activation already happened, the
Devkit extension is now present, and the activation flag records that it was
absent at the last activation, exactly one informational prompt offering the
`dotnet.restartServer` command is emitted; in every other case (not yet
activated, companion absent, or companion already present at activation) the
handler takes no action. -/
theorem onDidChange_restart_prompt (present : Bool) (s : ServerState) :
    (s.wasActivatedWithCSharpDevkit = some false → present = true →
      onDidChangeExtensionsHandler present s
        = [Effect.showInfo
            ("Detected installation of " ++ csharpDevkitExtensionId ++
              ". Would you like to relaunch the language server for added features?")
            "Restart Language Server" "dotnet.restartServer"] ∧
      (onDidChangeExtensionsHandler present s).length = 1) ∧
    (s.wasActivatedWithCSharpDevkit = none → onDidChangeExtensionsHandler present s = []) ∧
    (present = false → onDidChangeExtensionsHandler present s = []) ∧
    (s.wasActivatedWithCSharpDevkit = some true → onDidChangeExtensionsHandler present s = []) := by
  refine ⟨?_, ?_, ?_, ?_⟩
  · intro hw hp
    subst hp
    simp [onDidChangeExtensionsHandler, hw]
  · intro hw
    simp [onDidChangeExtensionsHandler, hw]
  · intro hp
    subst hp
    cases hw : s.wasActivatedWithCSharpDevkit with
    | none => simp [onDidChangeExtensionsHandler, hw]
    | some b => simp [onDidChangeExtensionsHandler, hw]
  · intro hw
    simp [onDidChangeExtensionsHandler, hw]

/-- C9 witness: a standalone-activated state with Devkit now present emits
exactly one prompt; with Devkit absent nothing is emitted. -/
theorem onDidChange_restart_prompt_witness :
    runningState.wasActivatedWithCSharpDevkit = some false ∧
    (onDidChangeExtensionsHandler true runningState).length = 1 ∧
    onDidChangeExtensionsHandler false runningState = [] :=
  have h := onDidChange_restart_prompt true runningState
  have h2 := onDidChange_restart_prompt false runningState
  ⟨rfl, (h.1 rfl rfl).2, h2.2.2.1 rfl⟩

/-- C7: when the Devkit extension is present and activated but its exports
object lacks the required `getBrokeredServiceServerPipeName` export,
resolving the brokered-service pipe name throws the contract-violation error;
when the extension is not installed at all, resolution returns no pipe name
and raises no error. -/
theorem devkit_export_contract (env : Env) (s : ServerState) :
    (∀ ext e, env.csharpDevkitExtension = some ext → ext.activateResult = some e →
      e.hasGetBrokeredServiceServerPipeName = false →
      getBrokeredServicePipeName
          (waitForCSharpDevkitActivationAndGetExports env s).2.wasActivatedWithCSharpDevkit
          (waitForCSharpDevkitActivationAndGetExports env s).1
        = Except.error
            "C# Devkit is installed but missing expected export getBrokeredServiceServerPipeName") ∧
    (env.csharpDevkitExtension = none →
      getBrokeredServicePipeName
          (waitForCSharpDevkitActivationAndGetExports env s).2.wasActivatedWithCSharpDevkit
          (waitForCSharpDevkitActivationAndGetExports env s).1
        = Except.ok none) := by
  constructor
  · intro ext e hext hact hmiss
    simp [waitForCSharpDevkitActivationAndGetExports, hext, hact,
      getBrokeredServicePipeName, optBoolTruthy, hmiss]
  · intro hext
    simp [waitForCSharpDevkitActivationAndGetExports, hext,
      getBrokeredServicePipeName, optBoolTruthy]

/-- C7 witness: a present Devkit extension missing the export makes pipe-name
resolution throw, while an absent extension yields no pipe name and no
error. -/
theorem devkit_export_contract_witness :
    devkitEnvBad.csharpDevkitExtension = some (Extension.mk (some badExports)) ∧
    getBrokeredServicePipeName
        (waitForCSharpDevkitActivationAndGetExports devkitEnvBad freshState).2.wasActivatedWithCSharpDevkit
        (waitForCSharpDevkitActivationAndGetExports devkitEnvBad freshState).1
      = Except.error
          "C# Devkit is installed but missing expected export getBrokeredServiceServerPipeName" ∧
    sampleEnv.csharpDevkitExtension = none ∧
    getBrokeredServicePipeName
        (waitForCSharpDevkitActivationAndGetExports sampleEnv freshState).2.wasActivatedWithCSharpDevkit
        (waitForCSharpDevkitActivationAndGetExports sampleEnv freshState).1
      = Except.ok none :=
  ⟨rfl,
   (devkit_export_contract devkitEnvBad freshState).1 (Extension.mk (some badExports)) badExports
     rfl rfl rfl,
   rfl,
   (devkit_export_contract sampleEnv freshState).2 rfl⟩

/-- C10: when the Devkit extension is present but its activation resolves to
a falsy exports value, pipe-name resolution returns no value and raises no
error — even though the required export is necessarily absent — and the
launch proceeds as if no pipe name existed: on an existing server path the
spawn succeeds with arguments built with no pipe name and no component
path. -/
theorem devkit_falsy_exports_no_pipe (env : Env) (s : ServerState) (ext : Extension)
    (hext : env.csharpDevkitExtension = some ext)
    (hact : ext.activateResult = none) :
    getBrokeredServicePipeName
        (waitForCSharpDevkitActivationAndGetExports env s).2.wasActivatedWithCSharpDevkit
        (waitForCSharpDevkitActivationAndGetExports env s).1
      = Except.ok none ∧
    (env.fsExists (resolveServerPath env) = true → ∀ sln lv,
      (startServer env s sln lv).2.1
        = Except.ok (spawnChoice (resolveServerPath env)
            (buildArgs env.waitForDebugger lv none sln none))) := by
  constructor
  · simp [waitForCSharpDevkitActivationAndGetExports, hext, hact,
      getBrokeredServicePipeName, optBoolTruthy]
  · intro hex sln lv
    simp [startServer, hex, waitForCSharpDevkitActivationAndGetExports, hext, hact,
      getBrokeredServicePipeName, getStarredCompletionComponentPath, optBoolTruthy]

/-- C10 witness: a present Devkit extension with falsy exports yields no pipe
name without error, and the server is spawned with the solution-path
arguments as if no pipe existed. -/
theorem devkit_falsy_exports_no_pipe_witness :
    devkitEnvFalsy.csharpDevkitExtension = some (Extension.mk none) ∧
    getBrokeredServicePipeName
        (waitForCSharpDevkitActivationAndGetExports devkitEnvFalsy freshState).2.wasActivatedWithCSharpDevkit
        (waitForCSharpDevkitActivationAndGetExports devkitEnvFalsy freshState).1
      = Except.ok none ∧
    (startServer devkitEnvFalsy freshState (some (Uri.mk "/work/App.sln"))
        (some "Information")).2.1
      = Except.ok (SpawnCall.mk "/opt/roslyn/Microsoft.CodeAnalysis.LanguageServer"
          ["--logLevel", "Information", "--solutionPath", "/work/App.sln"]) :=
  have h := devkit_falsy_exports_no_pipe devkitEnvFalsy freshState (Extension.mk none) rfl rfl
  ⟨rfl, h.1, (h.2 rfl (some (Uri.mk "/work/App.sln")) (some "Information")).trans rfl⟩

end RLS

namespace RLS
namespace UriConverter

theorem decodeChars_cons (c : Char) (xs : List Char)
    (h : ∀ ys, c = '%' → xs = '3' :: 'A' :: ys → False) (h2 : ¬ c = '/') :
    decodeChars (c :: xs) = c :: decodeChars xs := by
  rw [decodeChars.eq_def]
  split <;> simp_all

theorem encodeChars_cons_ne (c : Char) (xs : List Char) (h1 : ¬ c = ':') (h2 : ¬ c = '\\') :
    encodeChars (c :: xs) = c :: encodeChars xs := by
  rw [encodeChars]
  rw [if_neg h1, if_neg h2]

theorem decode_encode (p : List Char) (hp : ∀ c ∈ p, ¬ c = '%' ∧ ¬ c = '/') :
    decodeChars (encodeChars p) = p := by
  induction p with
  | nil => rfl
  | cons c rest ih =>
    have hc := hp c (List.mem_cons_self c rest)
    have hrest : ∀ x ∈ rest, ¬ x = '%' ∧ ¬ x = '/' :=
      fun x hx => hp x (List.mem_cons_of_mem c hx)
    by_cases h1 : c = ':'
    · subst h1
      simp [encodeChars, decodeChars, ih hrest]
    · by_cases h2 : c = '\\'
      · subst h2
        simp [encodeChars, decodeChars, ih hrest]
      · rw [encodeChars_cons_ne c _ h1 h2]
        rw [decodeChars_cons c _ (fun ys hcp => absurd hcp hc.1) hc.2, ih hrest]

theorem encode_decode (u : List Char) (hu : ∀ c ∈ u, ¬ c = ':' ∧ ¬ c = '\\') :
    encodeChars (decodeChars u) = u := by
  induction u using decodeChars.induct with
  | case1 => rfl
  | case2 rest ih =>
    have hrest : ∀ x ∈ rest, ¬ x = ':' ∧ ¬ x = '\\' := fun x hx => hu x (by simp [hx])
    rw [decodeChars]
    rw [encodeChars]
    simp [ih hrest]
  | case3 rest ih =>
    have hrest : ∀ x ∈ rest, ¬ x = ':' ∧ ¬ x = '\\' := fun x hx => hu x (by simp [hx])
    rw [decodeChars]
    rw [encodeChars]
    simp [encodeChars, ih hrest]
  | case4 c rest hshape hslash ih =>
    have hc := hu c (List.mem_cons_self c rest)
    have hrest : ∀ x ∈ rest, ¬ x = ':' ∧ ¬ x = '\\' :=
      fun x hx => hu x (List.mem_cons_of_mem c hx)
    rw [decodeChars_cons c rest hshape hslash]
    rw [encodeChars_cons_ne c _ hc.1 hc.2, ih hrest]

end UriConverter

/-- C6: for every valid workspace path and every valid protocol URI, the
identifier-conversion pair is a bijection — deserializing the serialization
of a path yields the path back, and serializing the deserialization of a URI
yields the URI back. -/
theorem uriConverter_roundtrip (p u : List Char)
    (hp : UriConverter.validPath p = true) (hu : UriConverter.validUri u = true) :
    UriConverter.deserialize (UriConverter.serialize p) = some p ∧
    ∀ d, UriConverter.deserialize u = some d → UriConverter.serialize d = u := by
  constructor
  · have hp2 : ∀ c ∈ p, ¬ c = '%' ∧ ¬ c = '/' := by
      intro c hc
      have hall := List.all_eq_true.mp hp c hc
      simp at hall
      exact ⟨hall.1, hall.2⟩
    simp [UriConverter.serialize, UriConverter.deserialize, UriConverter.decode_encode p hp2]
  · intro d hd
    rw [UriConverter.validUri.eq_def] at hu
    split at hu
    · next rest =>
      have hrest : ∀ x ∈ rest, ¬ x = ':' ∧ ¬ x = '\\' := by
        intro x hx
        have hall := List.all_eq_true.mp hu x hx
        simp at hall
        exact ⟨hall.1, hall.2⟩
      simp only [UriConverter.deserialize, Option.some.injEq] at hd
      subst hd
      simp [UriConverter.serialize, UriConverter.encode_decode _ hrest]
    · exact absurd hu (by simp)

/-- C6 witness: a concrete Windows-style path round-trips through
serialization, and a concrete protocol URI round-trips through
deserialization. -/
theorem uriConverter_roundtrip_witness :
    UriConverter.validPath (String.data "c:\\Users\\dab\\App.sln") = true ∧
    UriConverter.validUri (String.data "file:///c%3A/Users/dab/App.sln") = true ∧
    UriConverter.deserialize (UriConverter.serialize (String.data "c:\\Users\\dab\\App.sln"))
      = some (String.data "c:\\Users\\dab\\App.sln") ∧
    (∃ d, UriConverter.deserialize (String.data "file:///c%3A/Users/dab/App.sln") = some d ∧
      UriConverter.serialize d = String.data "file:///c%3A/Users/dab/App.sln") :=
  have h := uriConverter_roundtrip (String.data "c:\\Users\\dab\\App.sln")
    (String.data "file:///c%3A/Users/dab/App.sln") (by decide) (by decide)
  ⟨by decide, by decide, h.1, ⟨_, rfl, h.2 _ rfl⟩⟩

end RLS
